import Mathlib

/-!
Verification development for the beer-pipeline batch script
(src/pipeline.py): a time-window gate, a Google-Drive fetcher with a
direct-file-id attempt and a folder-search fallback, a chunked per-table
CSV exporter with per-table error isolation, and a manifest writer.

The script is embedded shallowly: external effects (gdown downloads, the
sqlite catalog, per-table row streams, md5) are parameters of the model,
and the control flow of the script is translated function by function.
Paths are modelled as lists of components: os.path.join appends a
component, os.path.basename reads the last one.
-/

set_option maxHeartbeats 1000000

namespace BeerPipeline

abbrev Path := List String

/-- os.path.basename: the last path component. -/
def basename (p : Path) : String := (p.getLast?).getD ""

/-- DOWNLOADDIR = os.path.join(WORKDIR, "tmp_download"). -/
def downloadDir : Path := ["tmp_download"]

/-- OUTPUTDIR = os.path.join(WORKDIR, "output"). -/
def outputDir : Path := ["output"]

/-- The environment-derived configuration block of pipeline.py. -/
structure Config where
  srcFolderId : String
  srcFileId : String
  targetFilename : String
  csvSeparator : String
  cleanOutput : Bool
  githubEventName : String
  forceRun : Bool

/-- _within_window_europe_rome: h = now.hour in Europe/Rome;
returns (15 <= h <= 23) or (0 <= h <= 2). -/
def withinWindowEuropeRome (h : Nat) : Bool :=
  (15 ≤ h && h ≤ 23) || (0 ≤ h && h ≤ 2)

/-- The override disjunction of main line 131: FORCE_RUN or
GITHUB_EVENT_NAME == "workflow_dispatch". -/
def gateBypassed (cfg : Config) : Bool :=
  cfg.forceRun || cfg.githubEventName == "workflow_dispatch"

/-- main lines 131-138: the run proceeds past the gate iff an override is
active or the current hour is inside the window. -/
def gateProceeds (cfg : Config) (hour : Nat) : Bool :=
  gateBypassed cfg || withinWindowEuropeRome hour

/-- A file of the staged download tree, as seen by glob + os.path. -/
structure FileStat where
  path : Path
  isFile : Bool
  size : Nat
  mtime : Nat
  deriving DecidableEq

/-- Outcome of one table's chunked read: pd.read_sql_query yields the
listed chunks in order; err = some e means the stream raised e after
yielding them (err = none: the stream completed normally). -/
structure TableRead where
  columns : List String
  chunks : List (List (List String))
  err : Option String
  deriving DecidableEq

/-- A row of sqlite_master: a name and a type tag. -/
structure CatalogEntry where
  name : String
  type : String
  deriving DecidableEq

/-- The external world of one run: the state the gdown calls leave behind
(directFile: existence/size of the direct-id target after gdown.download;
staged: the tree after gdown.download_folder), the sqlite catalog of the
downloaded database, the per-table row streams, md5 as a function of file
content, and the Unicode-aware character classifier backing Python's
str.isalnum (the runtime's Unicode character database is external data,
wider than ASCII Char.isAlphanum). -/
structure Env where
  directFile : Option Nat
  staged : List FileStat
  dbCatalog : List CatalogEntry
  reads : String → TableRead
  hash : List String → String
  nowIso : String
  isalnum : Char → Bool

/-- Side effects of a run, in order of occurrence. -/
inductive Effect
  | cleanedOutput
  | triedDirectDownload
  | downloadedFolder
  | wroteManifest
  deriving DecidableEq

/-- The success test of the direct-id attempt, line 63:
os.path.exists(out) and os.path.getsize(out) > 0. -/
def directOk : Option Nat → Bool
  | some n => decide (0 < n)
  | none => false

/-- out = os.path.join(DOWNLOADDIR, "source_by_id.sqlite3"), line 60. -/
def directPath : Path := downloadDir ++ ["source_by_id.sqlite3"]

/-- Lines 72-73: files of the staged tree whose basename equals
TARGET_FILENAME and which are regular files. -/
def folderCandidates (staged : List FileStat) (target : String) : List FileStat :=
  staged.filter (fun f => basename f.path == target && f.isFile)

/-- Python max(candidates, key=mtime): scan left to right, replace the
current best only on a strictly larger key, so the first of equal maxima
wins. -/
def maxByMtime (c : FileStat) (cs : List FileStat) : FileStat :=
  cs.foldl (fun acc f => if acc.mtime < f.mtime then f else acc) c

/-- Lines 72-83: search the staged tree for the target name; zero matches
raise FileNotFoundError, otherwise pick the most recent mtime. -/
def folderSearch (staged : List FileStat) (target : String) : Except String Path :=
  match folderCandidates staged target with
  | [] => Except.error (target ++ " non trovato nella cartella sorgente.")
  | c :: cs => Except.ok (maxByMtime c cs).path

/-- download_sqlite_from_drive, lines 53-83, with an effect trace
recording which gdown calls were made. -/
def download_sqlite_from_drive (cfg : Config) (env : Env) :
    Except String Path × List Effect :=
  if cfg.srcFileId = "" then
    (folderSearch env.staged cfg.targetFilename, [Effect.downloadedFolder])
  else
    if directOk env.directFile then
      (Except.ok directPath, [Effect.triedDirectDownload])
    else
      (folderSearch env.staged cfg.targetFilename,
       [Effect.triedDirectDownload, Effect.downloadedFolder])

/-- safe_name, lines 38-39: keep the characters Python's str.isalnum
accepts plus "-._", replace every other character with an underscore.
str.isalnum is Unicode-aware (it consults the runtime's Unicode character
database, which is external data), so the classifier is a parameter of
the model; ASCII Char.isAlphanum is one narrow instance of it, not the
general behaviour. -/
def safe_name (isalnum : Char → Bool) (s : String) : String :=
  String.mk (s.data.map (fun c =>
    if isalnum c || c == '-' || c == '.' || c == '_' then c else '_'))

/-- Line 94: the file name of a table's CSV inside the output directory. -/
def csvFileName (isalnum : Char → Bool) (t : String) : String :=
  safe_name isalnum t ++ ".csv"

/-- One CSV line: cells joined by the separator (quoting of embedded
separators is the CSV library's concern and not modelled). -/
def renderRow (sep : String) (r : List String) : String :=
  String.intercalate sep r

/-- The lines one chunk.to_csv call appends: a header line when
header=first, then one line per data row. -/
def chunkLines (sep : String) (cols : List String) (header : Bool)
    (rows : List (List String)) : List String :=
  (if header then [renderRow sep cols] else []) ++ rows.map (renderRow sep)

/-- Contents of the output directory: file name to lines, none = absent. -/
abbrev OutFiles := String → Option (List String)

def writeFile (fs : OutFiles) (name : String) (content : Option (List String)) :
    OutFiles :=
  fun n => if n = name then content else fs n

/-- md5sum, lines 32-36: open(path) raises FileNotFoundError on a missing
file; otherwise the digest of the whole content (the 1 MiB block loop
hashes exactly the full byte stream). -/
def md5sum (hash : List String → String) :
    Option (List String) → Except String String
  | none => Except.error "FileNotFoundError"
  | some content => Except.ok (hash content)

/-- One successful table export record, line 101. -/
structure ExportInfo where
  table : String
  csv_path : Path
  rows : Nat
  md5 : String
  deriving DecidableEq

/-- The chunk loop of lines 95-100: rows_total accumulates chunk lengths;
the first chunk truncates the file (mode "w", header on), later chunks
append data rows only. -/
def writeChunksLoop (sep : String) (cols : List String) :
    List (List (List String)) → Bool → Nat → Option (List String) →
    Nat × Option (List String)
  | [], _, total, file => (total, file)
  | chunk :: rest, first, total, file =>
      let lines := chunkLines sep cols first chunk
      let file1 := if first then some lines else some ((file.getD []) ++ lines)
      writeChunksLoop sep cols rest false (total + chunk.length) file1

/-- The body of the per-table loop, lines 94-105: write all yielded
chunks; if the stream raised, the exception is caught and nothing is
recorded (the partially written file stays on disk); otherwise md5sum the
file — whose own failure is caught by the same except — and record the
ExportInfo. -/
def exportOneTable (hash : List String → String) (isalnum : Char → Bool)
    (sep : String)
    (t : String) (r : TableRead) (file0 : Option (List String)) :
    Option ExportInfo × Option (List String) :=
  let res := writeChunksLoop sep r.columns r.chunks true 0 file0
  match r.err with
  | some _ => (none, res.2)
  | none =>
      match md5sum hash res.2 with
      | Except.error _ => (none, res.2)
      | Except.ok h =>
          (some ⟨t, outputDir ++ [csvFileName isalnum t], res.1, h⟩, res.2)

/-- The per-table loop of lines 93-105 over the output directory state. -/
def exportTables (hash : List String → String) (isalnum : Char → Bool)
    (sep : String) (reads : String → TableRead) :
    List String → OutFiles → List ExportInfo × OutFiles
  | [], fs => ([], fs)
  | t :: ts, fs =>
      let fname := csvFileName isalnum t
      let res := exportOneTable hash isalnum sep t (reads t) (fs fname)
      let rest := exportTables hash isalnum sep reads ts (writeFile fs fname res.2)
      (res.1.toList ++ rest.1, rest.2)

/-- Line 89: SELECT name FROM sqlite_master WHERE type='table' ORDER BY
name — filter the catalog to table entries and sort their names. -/
def tableNames (catalog : List CatalogEntry) : List String :=
  List.insertionSort (· ≤ ·)
    ((catalog.filter (fun e => e.type == "table")).map (fun e => e.name))

/-- export_all_tables_sqlite, lines 85-108: zero tables raise ValueError,
otherwise run the per-table loop (whose own errors are contained). -/
def export_all_tables_sqlite (hash : List String → String)
    (isalnum : Char → Bool)
    (catalog : List CatalogEntry) (reads : String → TableRead)
    (sep : String) (fs : OutFiles) :
    Except String (List ExportInfo × OutFiles) :=
  let tables := tableNames catalog
  if tables.isEmpty then Except.error "Nessuna tabella trovata nel database."
  else Except.ok (exportTables hash isalnum sep reads tables fs)

/-- One entry of manifest["files"], line 115. -/
structure ManifestEntry where
  table : String
  filename : String
  rows : Nat
  md5 : String
  deriving DecidableEq

/-- The manifest document, lines 111-116. -/
structure Manifest where
  run_date_iso : String
  source_folder_id : String
  source_file_id : String
  target_filename : String
  csv_separator : String
  files : List ManifestEntry

/-- Line 115: each export record reduced to its manifest entry. -/
def manifestFiles (files_info : List ExportInfo) : List ManifestEntry :=
  files_info.map (fun fi => ⟨fi.table, basename fi.csv_path, fi.rows, fi.md5⟩)

/-- write_manifest, lines 110-121 (the json serialization itself is not
modelled; the manifest value is). -/
def write_manifest (cfg : Config) (nowIso : String)
    (files_info : List ExportInfo) : Manifest :=
  ⟨nowIso, cfg.srcFolderId, cfg.srcFileId, cfg.targetFilename,
   cfg.csvSeparator, manifestFiles files_info⟩

/-- The output directory: the CSV files plus manifest.json. -/
structure OutDir where
  csvFiles : OutFiles
  manifestFile : Option Manifest

/-- clean_output_dir, lines 41-46: best-effort removal of every entry of
the output directory (modelled as complete removal). -/
def clean_output_dir (_ : OutDir) : OutDir := ⟨fun _ => none, none⟩

/-- How one run ends: skipped by the gate, completed normally, or
terminated by an uncaught exception. -/
inductive RunOutcome
  | skipped
  | completed (exported : List ExportInfo)
  | failed (err : String)

structure RunResult where
  outcome : RunOutcome
  out : OutDir
  effects : List Effect

/-- main, lines 123-156: gate first, then optional output cleaning, then
download, export and manifest. Any uncaught exception becomes failed. -/
def runMain (cfg : Config) (hour : Nat) (env : Env) (out0 : OutDir) :
    RunResult :=
  if gateProceeds cfg hour then
    let out1 := if cfg.cleanOutput then clean_output_dir out0 else out0
    let eff1 := if cfg.cleanOutput then [Effect.cleanedOutput] else []
    match download_sqlite_from_drive cfg env with
    | (Except.error e, eff2) => ⟨RunOutcome.failed e, out1, eff1 ++ eff2⟩
    | (Except.ok _, eff2) =>
        match export_all_tables_sqlite env.hash env.isalnum env.dbCatalog env.reads
            cfg.csvSeparator out1.csvFiles with
        | Except.error e => ⟨RunOutcome.failed e, out1, eff1 ++ eff2⟩
        | Except.ok (exported, fs1) =>
            ⟨RunOutcome.completed exported,
             ⟨fs1, some (write_manifest cfg env.nowIso exported)⟩,
             eff1 ++ eff2 ++ [Effect.wroteManifest]⟩
  else
    ⟨RunOutcome.skipped, out0, []⟩

/-- The __main__ wrapper, lines 158-165: exceptions exit 1, everything
else (a completed run or a gate skip) exits 0. -/
def exitCode : RunOutcome → Nat
  | RunOutcome.failed _ => 1
  | _ => 0

/-! ## Gate claims -/

/-- C1: for every wall-clock hour h in Europe/Rome, with no override set,
the gate proceeds iff 15 <= h <= 23 or 0 <= h <= 2; the boundary hours
15, 23, 0 and 2 are inclusive and the window spans midnight. -/
theorem gate_window_iff (cfg : Config) (h : Nat)
    (hf : cfg.forceRun = false)
    (he : cfg.githubEventName ≠ "workflow_dispatch")
    (_hh : h < 24) :
    gateProceeds cfg h = true ↔ ((15 ≤ h ∧ h ≤ 23) ∨ (0 ≤ h ∧ h ≤ 2)) := by
  unfold gateProceeds gateBypassed withinWindowEuropeRome
  rw [hf]
  simp only [Bool.false_or, Bool.or_eq_true, Bool.and_eq_true, decide_eq_true_eq,
    beq_iff_eq]
  constructor
  · rintro (h1 | h1 | h1)
    · exact absurd h1 he
    · exact Or.inl h1
    · exact Or.inr h1
  · rintro (h1 | h1)
    · exact Or.inr (Or.inl h1)
    · exact Or.inr (Or.inr h1)

theorem gate_window_iff_witness :
    gateProceeds ⟨"f", "", "data_raw.sqlite3", ";", true, "schedule", false⟩ 15
      = true :=
  (gate_window_iff ⟨"f", "", "data_raw.sqlite3", ";", true, "schedule", false⟩
    15 rfl (by decide) (by decide)).mpr (Or.inl ⟨by decide, by decide⟩)

/-- C2: whatever the hour, if the force-run flag is set or the invocation
is a manual workflow_dispatch trigger, the gate proceeds and the run goes
past the time-window check. -/
theorem gate_override_bypasses (cfg : Config) (hour : Nat) (env : Env)
    (out0 : OutDir)
    (hov : cfg.forceRun = true ∨ cfg.githubEventName = "workflow_dispatch") :
    gateProceeds cfg hour = true
      ∧ (runMain cfg hour env out0).outcome ≠ RunOutcome.skipped := by
  have hg : gateProceeds cfg hour = true := by
    unfold gateProceeds gateBypassed
    rcases hov with h1 | h1
    · rw [h1]; rfl
    · rw [h1]
      simp
  refine ⟨hg, ?_⟩
  unfold runMain
  rw [hg]
  simp only [if_true]
  rcases hdl : download_sqlite_from_drive cfg env with ⟨res, eff⟩
  cases res with
  | error e => simp
  | ok p =>
      rcases hex : export_all_tables_sqlite env.hash env.isalnum env.dbCatalog env.reads
          cfg.csvSeparator
          (if cfg.cleanOutput then clean_output_dir out0 else out0).csvFiles
        with e | pr
      · simp [hex]
      · rcases pr with ⟨exported, fs1⟩
        simp [hex]

theorem gate_override_bypasses_witness :
    gateProceeds ⟨"f", "", "data_raw.sqlite3", ";", true, "schedule", true⟩ 3
        = true
      ∧ (runMain ⟨"f", "", "data_raw.sqlite3", ";", true, "schedule", true⟩ 3
          ⟨none, [], [], fun _ => ⟨[], [], none⟩, fun _ => "h", "now", Char.isAlphanum⟩
          ⟨fun _ => none, none⟩).outcome ≠ RunOutcome.skipped :=
  gate_override_bypasses _ 3 _ _ (Or.inl rfl)

/-- C3: when the gate denies and no override is present, main returns
right away: the outcome is a skip (exit code 0), the output directory is
returned unchanged, and no effect — no cleaning, no download, no manifest
write — takes place. -/
theorem gate_deny_skips (cfg : Config) (hour : Nat) (env : Env)
    (out0 : OutDir)
    (hg : gateProceeds cfg hour = false) :
    runMain cfg hour env out0 = ⟨RunOutcome.skipped, out0, []⟩
      ∧ exitCode (runMain cfg hour env out0).outcome = 0 := by
  have h1 : runMain cfg hour env out0 = ⟨RunOutcome.skipped, out0, []⟩ := by
    unfold runMain
    rw [hg]
    simp
  exact ⟨h1, by rw [h1]; rfl⟩

theorem gate_deny_skips_witness :
    runMain ⟨"f", "", "data_raw.sqlite3", ";", true, "schedule", false⟩ 5
        ⟨none, [], [], fun _ => ⟨[], [], none⟩, fun _ => "h", "now", Char.isAlphanum⟩
        ⟨fun _ => none, none⟩
      = ⟨RunOutcome.skipped, ⟨fun _ => none, none⟩, []⟩
      ∧ exitCode (runMain
          ⟨"f", "", "data_raw.sqlite3", ";", true, "schedule", false⟩ 5
          ⟨none, [], [], fun _ => ⟨[], [], none⟩, fun _ => "h", "now", Char.isAlphanum⟩
          ⟨fun _ => none, none⟩).outcome = 0 :=
  gate_deny_skips _ 5 _ _ (by decide)

/-! ## Fetcher claims -/

lemma maxByMtime_mem (cs : List FileStat) : ∀ c, maxByMtime c cs ∈ c :: cs := by
  induction cs with
  | nil =>
      intro c
      simp [maxByMtime]
  | cons f fs ih =>
      intro c
      have h1 : maxByMtime c (f :: fs)
          = maxByMtime (if c.mtime < f.mtime then f else c) fs := rfl
      have h2 := ih (if c.mtime < f.mtime then f else c)
      rw [List.mem_cons] at h2
      rw [h1]
      by_cases hc : c.mtime < f.mtime
      · rw [if_pos hc] at h2 ⊢
        rcases h2 with h2 | h2
        · simp [h2]
        · simp [h2]
      · rw [if_neg hc] at h2 ⊢
        rcases h2 with h2 | h2
        · simp [h2]
        · simp [h2]

lemma maxByMtime_le (cs : List FileStat) :
    ∀ c g, g ∈ c :: cs → g.mtime ≤ (maxByMtime c cs).mtime := by
  induction cs with
  | nil =>
      intro c g hg
      rcases List.mem_cons.mp hg with hg | hg
      · subst hg
        exact Nat.le_refl _
      · exact absurd hg (List.not_mem_nil g)
  | cons f fs ih =>
      intro c g hg
      have h1 : maxByMtime c (f :: fs)
          = maxByMtime (if c.mtime < f.mtime then f else c) fs := rfl
      rw [h1]
      have hc : c.mtime ≤ (if c.mtime < f.mtime then f else c).mtime := by
        by_cases h2 : c.mtime < f.mtime
        · rw [if_pos h2]; exact Nat.le_of_lt h2
        · rw [if_neg h2]
      have hf : f.mtime ≤ (if c.mtime < f.mtime then f else c).mtime := by
        by_cases h2 : c.mtime < f.mtime
        · rw [if_pos h2]
        · rw [if_neg h2]; exact Nat.le_of_not_lt h2
      have hhead := ih (if c.mtime < f.mtime then f else c) _
        (List.mem_cons_self _ _)
      rcases List.mem_cons.mp hg with hg | hg
      · subst hg
        exact Nat.le_trans hc hhead
      · rcases List.mem_cons.mp hg with hg | hg
        · subst hg
          exact Nat.le_trans hf hhead
        · exact ih _ g (List.mem_cons_of_mem _ hg)

/-- C4: with a non-empty direct source file id, success of the direct
attempt means the local file exists with non-zero size, and on success the
fetcher returns the fixed direct path with no folder download at all;
when the attempt leaves a missing or zero-byte file, the fetcher falls
back to the folder search instead of aborting. -/
theorem direct_id_policy (cfg : Config) (env : Env)
    (hid : cfg.srcFileId ≠ "") :
    (directOk env.directFile = true ↔ ∃ n, env.directFile = some n ∧ 0 < n)
    ∧ (directOk env.directFile = true →
        download_sqlite_from_drive cfg env
          = (Except.ok directPath, [Effect.triedDirectDownload]))
    ∧ (directOk env.directFile = false →
        download_sqlite_from_drive cfg env
          = (folderSearch env.staged cfg.targetFilename,
             [Effect.triedDirectDownload, Effect.downloadedFolder])) := by
  refine ⟨?_, ?_, ?_⟩
  · cases h : env.directFile with
    | none => simp [directOk]
    | some n => simp [directOk]
  · intro h
    unfold download_sqlite_from_drive
    rw [if_neg hid, if_pos h]
  · intro h
    unfold download_sqlite_from_drive
    rw [if_neg hid, if_neg (by rw [h]; exact Bool.false_ne_true)]

theorem direct_id_policy_witness :
    download_sqlite_from_drive
        ⟨"folder", "fileid", "data_raw.sqlite3", ";", true, "schedule", false⟩
        ⟨some 5, [], [], fun _ => ⟨[], [], none⟩, fun _ => "h", "now", Char.isAlphanum⟩
      = (Except.ok directPath, [Effect.triedDirectDownload]) :=
  (direct_id_policy
    ⟨"folder", "fileid", "data_raw.sqlite3", ";", true, "schedule", false⟩
    ⟨some 5, [], [], fun _ => ⟨[], [], none⟩, fun _ => "h", "now", Char.isAlphanum⟩
    (by decide)).2.1 (by decide)

/-- C5: the folder-search fallback considers exactly the staged regular
files whose basename equals the target name; zero candidates raise the
not-found error, which aborts the run with a non-zero exit, and otherwise
the selected path belongs to a candidate of maximal modification time. -/
theorem folder_search_policy (staged : List FileStat) (target : String) :
    (∀ f, f ∈ folderCandidates staged target ↔
        (f ∈ staged ∧ basename f.path = target ∧ f.isFile = true))
    ∧ (folderCandidates staged target = [] →
        folderSearch staged target
          = Except.error (target ++ " non trovato nella cartella sorgente."))
    ∧ (∀ (cfg : Config) (hour : Nat) (env : Env) (out0 : OutDir),
        env.staged = staged → cfg.targetFilename = target →
        cfg.srcFileId = "" → gateProceeds cfg hour = true →
        folderCandidates staged target = [] →
        exitCode (runMain cfg hour env out0).outcome = 1)
    ∧ (folderCandidates staged target ≠ [] →
        ∃ f, f ∈ folderCandidates staged target
          ∧ folderSearch staged target = Except.ok f.path
          ∧ ∀ g, g ∈ folderCandidates staged target → g.mtime ≤ f.mtime) := by
  have herrcase : folderCandidates staged target = [] →
      folderSearch staged target
        = Except.error (target ++ " non trovato nella cartella sorgente.") := by
    intro h
    unfold folderSearch
    rw [h]
  refine ⟨?_, herrcase, ?_, ?_⟩
  · intro f
    unfold folderCandidates
    rw [List.mem_filter]
    simp [Bool.and_eq_true]
  · rintro cfg hour env out0 hstag htarg hid hgate hempty
    unfold runMain
    rw [hgate]
    simp only [if_true]
    have hdl : download_sqlite_from_drive cfg env
        = (Except.error (target ++ " non trovato nella cartella sorgente."),
           [Effect.downloadedFolder]) := by
      unfold download_sqlite_from_drive
      rw [if_pos hid, hstag, htarg, herrcase hempty]
    simp only [hdl]
    rfl
  · intro h
    rcases List.exists_cons_of_ne_nil h with ⟨c, cs, hcs⟩
    refine ⟨maxByMtime c cs, ?_, ?_, ?_⟩
    · rw [hcs]
      exact maxByMtime_mem cs c
    · unfold folderSearch
      rw [hcs]
    · intro g hg
      rw [hcs] at hg
      exact maxByMtime_le cs c g hg

theorem folder_search_policy_witness :
    ∃ f, f ∈ folderCandidates
          [⟨["tmp_download", "data_raw.sqlite3"], true, 10, 7⟩]
          "data_raw.sqlite3"
      ∧ folderSearch [⟨["tmp_download", "data_raw.sqlite3"], true, 10, 7⟩]
          "data_raw.sqlite3" = Except.ok f.path
      ∧ ∀ g, g ∈ folderCandidates
            [⟨["tmp_download", "data_raw.sqlite3"], true, 10, 7⟩]
            "data_raw.sqlite3" → g.mtime ≤ f.mtime :=
  (folder_search_policy [⟨["tmp_download", "data_raw.sqlite3"], true, 10, 7⟩]
    "data_raw.sqlite3").2.2.2 (by decide)

/-! ## Exporter machinery -/

/-- The file a completed, non-empty chunk stream leaves behind: one header
line followed by every data row of every chunk. -/
def fullCsv (sep : String) (r : TableRead) : List String :=
  renderRow sep r.columns :: (r.chunks.flatten.map (renderRow sep))

lemma fullCsv_length (sep : String) (r : TableRead) :
    (fullCsv sep r).length - 1 = r.chunks.flatten.length := by
  simp [fullCsv, Function.comp_def, List.length_map]

lemma writeChunksLoop_append (sep : String) (cols : List String) :
    ∀ (chunks : List (List (List String))) (total : Nat) (acc : List String),
      writeChunksLoop sep cols chunks false total (some acc)
        = (total + chunks.flatten.length,
           some (acc ++ chunks.flatten.map (renderRow sep))) := by
  intro chunks
  induction chunks with
  | nil =>
      intro total acc
      simp [writeChunksLoop]
  | cons chunk rest ih =>
      intro total acc
      rw [show writeChunksLoop sep cols (chunk :: rest) false total (some acc)
            = writeChunksLoop sep cols rest false (total + chunk.length)
                (some (acc ++ chunkLines sep cols false chunk)) from rfl]
      rw [ih]
      simp [chunkLines, List.map_append, List.append_assoc, Nat.add_assoc]

lemma writeChunksLoop_full (sep : String) (cols : List String)
    (chunks : List (List (List String))) (file0 : Option (List String))
    (hne : chunks ≠ []) :
    writeChunksLoop sep cols chunks true 0 file0
      = (chunks.flatten.length,
         some (renderRow sep cols :: chunks.flatten.map (renderRow sep))) := by
  rcases List.exists_cons_of_ne_nil hne with ⟨chunk, rest, hcs⟩
  subst hcs
  rw [show writeChunksLoop sep cols (chunk :: rest) true 0 file0
        = writeChunksLoop sep cols rest false (0 + chunk.length)
            (some (chunkLines sep cols true chunk)) from rfl]
  rw [writeChunksLoop_append]
  simp [chunkLines, List.map_append]

lemma exportOneTable_ok (hash : List String → String) (isalnum : Char → Bool)
    (sep t : String)
    (r : TableRead) (file0 : Option (List String))
    (herr : r.err = none) (hne : r.chunks ≠ []) :
    exportOneTable hash isalnum sep t r file0
      = (some ⟨t, outputDir ++ [csvFileName isalnum t], r.chunks.flatten.length,
               hash (fullCsv sep r)⟩,
         some (fullCsv sep r)) := by
  unfold exportOneTable
  rw [writeChunksLoop_full sep r.columns r.chunks file0 hne, herr]
  rfl

lemma exportOneTable_err (hash : List String → String) (isalnum : Char → Bool)
    (sep t : String)
    (r : TableRead) (file0 : Option (List String)) (e : String)
    (herr : r.err = some e) :
    (exportOneTable hash isalnum sep t r file0).1 = none := by
  unfold exportOneTable
  rw [herr]

lemma exportOneTable_empty (hash : List String → String) (isalnum : Char → Bool)
    (sep t : String)
    (r : TableRead) (hchunks : r.chunks = []) (herr : r.err = none) :
    exportOneTable hash isalnum sep t r none = (none, none) := by
  unfold exportOneTable
  rw [hchunks, herr]
  rfl

lemma exportOneTable_table (hash : List String → String) (isalnum : Char → Bool)
    (sep t : String)
    (r : TableRead) (file0 : Option (List String)) (i : ExportInfo)
    (h : (exportOneTable hash isalnum sep t r file0).1 = some i) :
    i.table = t ∧ r.err = none := by
  unfold exportOneTable at h
  cases herr : r.err with
  | some e =>
      rw [herr] at h
      simp at h
  | none =>
      rw [herr] at h
      refine ⟨?_, rfl⟩
      cases hres : (writeChunksLoop sep r.columns r.chunks true 0 file0).2 with
      | none =>
          rw [show writeChunksLoop sep r.columns r.chunks true 0 file0
                = ((writeChunksLoop sep r.columns r.chunks true 0 file0).1,
                   (writeChunksLoop sep r.columns r.chunks true 0 file0).2)
              from rfl, hres] at h
          simp [md5sum] at h
      | some content =>
          rw [show writeChunksLoop sep r.columns r.chunks true 0 file0
                = ((writeChunksLoop sep r.columns r.chunks true 0 file0).1,
                   (writeChunksLoop sep r.columns r.chunks true 0 file0).2)
              from rfl, hres] at h
          simp [md5sum] at h
          rw [← h]

lemma basename_output (x : String) : basename (outputDir ++ [x]) = x := rfl

lemma manifestFiles_table_map (l : List ExportInfo) :
    (manifestFiles l).map ManifestEntry.table = l.map ExportInfo.table := by
  simp [manifestFiles, List.map_map]

lemma exportTables_table_mem (hash : List String → String)
    (isalnum : Char → Bool) (sep : String)
    (reads : String → TableRead) :
    ∀ (ts : List String) (fs : OutFiles) (i : ExportInfo),
      i ∈ (exportTables hash isalnum sep reads ts fs).1 →
      i.table ∈ ts ∧ (reads i.table).err = none := by
  intro ts
  induction ts with
  | nil =>
      intro fs i h
      simp [exportTables] at h
  | cons t ts ih =>
      intro fs i h
      simp only [exportTables] at h
      rw [List.mem_append] at h
      rcases h with h | h
      · rcases hone : (exportOneTable hash isalnum sep t (reads t) (fs (csvFileName isalnum t))).1
          with _ | j
        · rw [hone] at h
          simp at h
        · rw [hone] at h
          simp at h
          subst h
          have h2 := exportOneTable_table hash isalnum sep t (reads t)
            (fs (csvFileName isalnum t)) i hone
          refine ⟨?_, ?_⟩
          · rw [h2.1]
            exact List.mem_cons_self _ _
          · rw [h2.1]
            exact h2.2
      · have h2 := ih _ i h
        exact ⟨List.mem_cons_of_mem _ h2.1, h2.2⟩

lemma exportTables_mem_of_ok (hash : List String → String)
    (isalnum : Char → Bool) (sep : String)
    (reads : String → TableRead) :
    ∀ (ts : List String) (fs : OutFiles) (u : String),
      u ∈ ts → (reads u).err = none → (reads u).chunks ≠ [] →
      u ∈ (exportTables hash isalnum sep reads ts fs).1.map ExportInfo.table := by
  intro ts
  induction ts with
  | nil =>
      intro fs u h
      simp at h
  | cons t ts ih =>
      intro fs u hu herr hch
      simp only [exportTables]
      rw [List.map_append, List.mem_append]
      rcases List.mem_cons.mp hu with hu | hu
      · subst hu
        left
        rw [exportOneTable_ok hash isalnum sep u (reads u) _ herr hch]
        simp
      · right
        exact ih _ u hu herr hch

lemma exportTables_manifest (hash : List String → String)
    (isalnum : Char → Bool) (sep : String)
    (reads : String → TableRead) :
    ∀ (ts : List String) (fs : OutFiles),
      (∀ t, t ∈ ts → (reads t).chunks ≠ []) →
      manifestFiles (exportTables hash isalnum sep reads ts fs).1
        = (ts.filter (fun t => ((reads t).err).isNone)).map
            (fun t => ⟨t, csvFileName isalnum t, (fullCsv sep (reads t)).length - 1,
                       hash (fullCsv sep (reads t))⟩) := by
  intro ts
  induction ts with
  | nil =>
      intro fs H
      simp [exportTables, manifestFiles]
  | cons t ts ih =>
      intro fs H
      have Ht : (reads t).chunks ≠ [] := H t (List.mem_cons_self _ _)
      have Hts : ∀ u, u ∈ ts → (reads u).chunks ≠ [] :=
        fun u hu => H u (List.mem_cons_of_mem _ hu)
      simp only [exportTables]
      rw [show manifestFiles
            ((exportOneTable hash isalnum sep t (reads t) (fs (csvFileName isalnum t))).1.toList
              ++ (exportTables hash isalnum sep reads ts
                   (writeFile fs (csvFileName isalnum t)
                     (exportOneTable hash isalnum sep t (reads t)
                       (fs (csvFileName isalnum t))).2)).1)
          = manifestFiles
              (exportOneTable hash isalnum sep t (reads t) (fs (csvFileName isalnum t))).1.toList
            ++ manifestFiles
                (exportTables hash isalnum sep reads ts
                  (writeFile fs (csvFileName isalnum t)
                    (exportOneTable hash isalnum sep t (reads t)
                      (fs (csvFileName isalnum t))).2)).1
          from List.map_append _ _ _]
      rw [ih _ Hts]
      cases herr : (reads t).err with
      | some e =>
          rw [exportOneTable_err hash isalnum sep t (reads t) (fs (csvFileName isalnum t)) e herr]
          rw [List.filter_cons]
          rw [herr]
          simp [manifestFiles]
      | none =>
          rw [exportOneTable_ok hash isalnum sep t (reads t) (fs (csvFileName isalnum t)) herr Ht]
          rw [List.filter_cons]
          rw [herr]
          simp only [Option.isNone_none, if_true, List.map_cons]
          rw [show manifestFiles
                (some (⟨t, outputDir ++ [csvFileName isalnum t],
                  (reads t).chunks.flatten.length,
                  hash (fullCsv sep (reads t))⟩ : ExportInfo)).toList
              = [⟨t, basename (outputDir ++ [csvFileName isalnum t]),
                  (reads t).chunks.flatten.length,
                  hash (fullCsv sep (reads t))⟩] from rfl]
          rw [basename_output, ← fullCsv_length sep (reads t)]
          rfl

lemma exportTables_empty_stream (hash : List String → String) (isalnum : Char → Bool)
    (sep t : String)
    (reads : String → TableRead)
    (hchunks : (reads t).chunks = []) (herr : (reads t).err = none) :
    ∀ (ts : List String) (fs : OutFiles),
      fs (csvFileName isalnum t) = none →
      (∀ u, u ∈ ts → csvFileName isalnum u = csvFileName isalnum t → u = t) →
      t ∉ (exportTables hash isalnum sep reads ts fs).1.map ExportInfo.table
      ∧ (exportTables hash isalnum sep reads ts fs).2 (csvFileName isalnum t) = none := by
  intro ts
  induction ts with
  | nil =>
      intro fs h0 hcol
      exact ⟨by simp [exportTables], h0⟩
  | cons u ts ih =>
      intro fs h0 hcol
      have hcol2 : ∀ v, v ∈ ts → csvFileName isalnum v = csvFileName isalnum t → v = t :=
        fun v hv => hcol v (List.mem_cons_of_mem _ hv)
      simp only [exportTables]
      by_cases hu : u = t
      · subst hu
        have hone : exportOneTable hash isalnum sep u (reads u) (fs (csvFileName isalnum u))
            = (none, none) := by
          rw [h0]
          exact exportOneTable_empty hash isalnum sep u (reads u) hchunks herr
        rw [hone]
        have hw : writeFile fs (csvFileName isalnum u) none (csvFileName isalnum u) = none := by
          unfold writeFile
          rw [if_pos rfl]
        have h2 := ih (writeFile fs (csvFileName isalnum u) none) hw hcol2
        refine ⟨?_, h2.2⟩
        simpa using h2.1
      · have hname : csvFileName isalnum u ≠ csvFileName isalnum t :=
          fun hcf => hu (hcol u (List.mem_cons_self _ _) hcf)
        have hw : writeFile fs (csvFileName isalnum u)
            (exportOneTable hash isalnum sep u (reads u) (fs (csvFileName isalnum u))).2
            (csvFileName isalnum t) = none := by
          unfold writeFile
          rw [if_neg (fun hcf => hname hcf.symm), h0]
        have h2 := ih _ hw hcol2
        refine ⟨?_, h2.2⟩
        rw [List.map_append, List.mem_append]
        rintro (hmem | hmem)
        · rcases hone : (exportOneTable hash isalnum sep u (reads u)
              (fs (csvFileName isalnum u))).1 with _ | j
          · rw [hone] at hmem
            simp at hmem
          · rw [hone] at hmem
            simp at hmem
            have h3 := exportOneTable_table hash isalnum sep u (reads u)
              (fs (csvFileName isalnum u)) j hone
            exact hu ((hmem.trans h3.1).symm)
        · exact h2.1 hmem

lemma runMain_completed (cfg : Config) (hour : Nat) (env : Env) (out0 : OutDir)
    (p : Path)
    (hgate : gateProceeds cfg hour = true)
    (hp : (download_sqlite_from_drive cfg env).1 = Except.ok p)
    (hne : tableNames env.dbCatalog ≠ []) :
    (runMain cfg hour env out0).outcome
      = RunOutcome.completed
          (exportTables env.hash env.isalnum cfg.csvSeparator env.reads
            (tableNames env.dbCatalog)
            (if cfg.cleanOutput then clean_output_dir out0 else out0).csvFiles).1 := by
  unfold runMain
  rw [hgate]
  simp only [if_true]
  rcases hdlv : download_sqlite_from_drive cfg env with ⟨res, eff⟩
  rw [hdlv] at hp
  have hres : res = Except.ok p := hp
  subst hres
  have hisE : (tableNames env.dbCatalog).isEmpty = false := by
    cases h : tableNames env.dbCatalog with
    | nil => exact absurd h hne
    | cons a l => rfl
  unfold export_all_tables_sqlite
  simp only [hisE, Bool.false_eq_true, if_false]

/-! ## Exporter and manifest claims -/

/-- C6: the exporter enumerates exactly the catalog entries of kind
"table", ordered by name ascending; an empty enumeration raises the
"no tables" ValueError instead of producing an empty export, and that
error aborts the run with a non-zero exit code. -/
theorem tables_catalog_order (catalog : List CatalogEntry) :
    (tableNames catalog).Sorted (· ≤ ·)
    ∧ (tableNames catalog).Perm
        ((catalog.filter (fun e => e.type == "table")).map (fun e => e.name))
    ∧ (∀ (hash : List String → String) (isalnum : Char → Bool)
          (reads : String → TableRead) (sep : String) (fs : OutFiles),
        tableNames catalog = [] →
        export_all_tables_sqlite hash isalnum catalog reads sep fs
          = Except.error "Nessuna tabella trovata nel database.")
    ∧ (∀ (cfg : Config) (hour : Nat) (env : Env) (out0 : OutDir),
        env.dbCatalog = catalog →
        gateProceeds cfg hour = true →
        (∃ p, (download_sqlite_from_drive cfg env).1 = Except.ok p) →
        tableNames catalog = [] →
        exitCode (runMain cfg hour env out0).outcome = 1) := by
  refine ⟨List.sorted_insertionSort _ _, List.perm_insertionSort _ _, ?_, ?_⟩
  · intro hash isalnum reads sep fs hempty
    unfold export_all_tables_sqlite
    rw [hempty]
    rfl
  · rintro cfg hour env out0 hcat hgate ⟨p, hp⟩ hempty
    unfold runMain
    rw [hgate]
    simp only [if_true]
    rcases hdlv : download_sqlite_from_drive cfg env with ⟨res, eff⟩
    rw [hdlv] at hp
    have hres : res = Except.ok p := hp
    subst hres
    have hexq : export_all_tables_sqlite env.hash env.isalnum env.dbCatalog env.reads
        cfg.csvSeparator
        (if cfg.cleanOutput then clean_output_dir out0 else out0).csvFiles
        = Except.error "Nessuna tabella trovata nel database." := by
      unfold export_all_tables_sqlite
      rw [hcat, hempty]
      rfl
    simp only [hexq]
    rfl

theorem tables_catalog_order_witness :
    exitCode (runMain ⟨"folder", "fid", "d", ";", true, "schedule", true⟩ 16
        ⟨some 5, [], [], fun _ => ⟨[], [], none⟩, fun _ => "h", "now", Char.isAlphanum⟩
        ⟨fun _ => none, none⟩).outcome = 1 :=
  (tables_catalog_order []).2.2.2
    ⟨"folder", "fid", "d", ";", true, "schedule", true⟩ 16
    ⟨some 5, [], [], fun _ => ⟨[], [], none⟩, fun _ => "h", "now", Char.isAlphanum⟩
    ⟨fun _ => none, none⟩ rfl rfl ⟨directPath, rfl⟩ rfl

/-- C7: when one table's stream raises, the run still completes with exit
code 0, the failed table appears neither in the export result list nor in
the manifest, and every table whose stream completes normally (with at
least one chunk) is still exported. -/
theorem per_table_failure_isolated (cfg : Config) (hour : Nat) (env : Env)
    (out0 : OutDir) (t e : String)
    (hgate : gateProceeds cfg hour = true)
    (hdl : ∃ p, (download_sqlite_from_drive cfg env).1 = Except.ok p)
    (hne : tableNames env.dbCatalog ≠ [])
    (_ht : t ∈ tableNames env.dbCatalog)
    (herr : (env.reads t).err = some e) :
    ∃ exported,
      (runMain cfg hour env out0).outcome = RunOutcome.completed exported
      ∧ exitCode (runMain cfg hour env out0).outcome = 0
      ∧ t ∉ exported.map ExportInfo.table
      ∧ t ∉ (manifestFiles exported).map ManifestEntry.table
      ∧ (∀ u, u ∈ tableNames env.dbCatalog → (env.reads u).err = none →
          (env.reads u).chunks ≠ [] → u ∈ exported.map ExportInfo.table) := by
  obtain ⟨p, hp⟩ := hdl
  have hrun := runMain_completed cfg hour env out0 p hgate hp hne
  have hnot : t ∉ (exportTables env.hash env.isalnum cfg.csvSeparator env.reads
      (tableNames env.dbCatalog)
      (if cfg.cleanOutput then clean_output_dir out0 else out0).csvFiles).1.map
        ExportInfo.table := by
    intro hmem
    rw [List.mem_map] at hmem
    obtain ⟨i, hi, hit⟩ := hmem
    have h2 := exportTables_table_mem env.hash env.isalnum cfg.csvSeparator env.reads _ _ i hi
    rw [hit] at h2
    exact Option.noConfusion (h2.2.symm.trans herr)
  refine ⟨_, hrun, by rw [hrun]; rfl, hnot, ?_, ?_⟩
  · rw [manifestFiles_table_map]
    exact hnot
  · intro u hu huerr huch
    exact exportTables_mem_of_ok env.hash env.isalnum cfg.csvSeparator env.reads _ _ u
      hu huerr huch

theorem per_table_failure_isolated_witness :
    ∃ exported,
      (runMain ⟨"folder", "fid", "data_raw.sqlite3", ";", true, "schedule", true⟩
          16
          ⟨some 5, [], [⟨"a", "table"⟩, ⟨"b", "table"⟩],
           fun u => if u = "a" then ⟨["c"], [], some "boom"⟩
                    else ⟨["c"], [[["x"]]], none⟩,
           fun _ => "h", "now", Char.isAlphanum⟩
          ⟨fun _ => none, none⟩).outcome = RunOutcome.completed exported
      ∧ exitCode (runMain
          ⟨"folder", "fid", "data_raw.sqlite3", ";", true, "schedule", true⟩
          16
          ⟨some 5, [], [⟨"a", "table"⟩, ⟨"b", "table"⟩],
           fun u => if u = "a" then ⟨["c"], [], some "boom"⟩
                    else ⟨["c"], [[["x"]]], none⟩,
           fun _ => "h", "now", Char.isAlphanum⟩
          ⟨fun _ => none, none⟩).outcome = 0
      ∧ "a" ∉ exported.map ExportInfo.table
      ∧ "a" ∉ (manifestFiles exported).map ManifestEntry.table
      ∧ (∀ u, u ∈ tableNames [⟨"a", "table"⟩, ⟨"b", "table"⟩] →
          ((fun u => if u = "a" then (⟨["c"], [], some "boom"⟩ : TableRead)
                     else ⟨["c"], [[["x"]]], none⟩) u).err = none →
          ((fun u => if u = "a" then (⟨["c"], [], some "boom"⟩ : TableRead)
                     else ⟨["c"], [[["x"]]], none⟩) u).chunks ≠ [] →
          u ∈ exported.map ExportInfo.table) :=
  per_table_failure_isolated
    ⟨"folder", "fid", "data_raw.sqlite3", ";", true, "schedule", true⟩ 16
    ⟨some 5, [], [⟨"a", "table"⟩, ⟨"b", "table"⟩],
     fun u => if u = "a" then ⟨["c"], [], some "boom"⟩
              else ⟨["c"], [[["x"]]], none⟩,
     fun _ => "h", "now", Char.isAlphanum⟩
    ⟨fun _ => none, none⟩ "a" "boom" rfl ⟨directPath, rfl⟩
    (show tableNames [⟨"a", "table"⟩, ⟨"b", "table"⟩] ≠ [] by
      intro h
      have h2 := congrArg List.length h
      rw [show tableNames [⟨"a", "table"⟩, ⟨"b", "table"⟩]
            = List.insertionSort (fun a b => a ≤ b)
                ((([⟨"a", "table"⟩, ⟨"b", "table"⟩] :
                    List CatalogEntry).filter
                  (fun e => e.type == "table")).map (fun e => e.name))
          from rfl, List.length_insertionSort] at h2
      exact absurd h2 (by decide))
    (show "a" ∈ tableNames [⟨"a", "table"⟩, ⟨"b", "table"⟩] by
      rw [show tableNames [⟨"a", "table"⟩, ⟨"b", "table"⟩]
            = List.insertionSort (fun a b => a ≤ b)
                ((([⟨"a", "table"⟩, ⟨"b", "table"⟩] :
                    List CatalogEntry).filter
                  (fun e => e.type == "table")).map (fun e => e.name))
          from rfl, (List.perm_insertionSort _ _).mem_iff]
      decide)
    rfl

/-- C8: for every character classifier standing for the runtime's
Unicode-aware str.isalnum, the output file name of a table is its name
with every character that is not alphanumeric (in that Unicode-aware
sense) and not one of "-", ".", "_" replaced by an underscore — all other
characters kept unchanged — followed by ".csv". -/
theorem csv_filename_sanitized (isalnum : Char → Bool) (t : String) :
    csvFileName isalnum t
      = String.mk (t.data.map (fun c =>
          if isalnum c = true ∨ c = '-' ∨ c = '.' ∨ c = '_' then c else '_'))
        ++ ".csv" := by
  have hfun : ∀ c : Char,
      (if isalnum c || c == '-' || c == '.' || c == '_' then c else '_')
        = (if isalnum c = true ∨ c = '-' ∨ c = '.' ∨ c = '_' then c
           else '_') := by
    intro c
    by_cases h : isalnum c = true ∨ c = '-' ∨ c = '.' ∨ c = '_'
    · have hb : (isalnum c || c == '-' || c == '.' || c == '_') = true := by
        rcases h with h | h | h | h
        · simp [h]
        · simp [h]
        · simp [h]
        · simp [h]
      rw [if_pos h, hb, if_pos rfl]
    · have hb : (isalnum c || c == '-' || c == '.' || c == '_') = false := by
        simp only [not_or] at h
        obtain ⟨h1, h2, h3, h4⟩ := h
        have hb1 : isalnum c = false := by
          cases hh : isalnum c
          · rfl
          · exact absurd hh h1
        simp [hb1, h2, h3, h4]
      rw [if_neg h, hb]
      rfl
  unfold csvFileName safe_name
  congr 2
  exact List.map_congr_left (fun c _ => hfun c)

/-- C9: the manifest file list equals, in export (catalog) order, exactly
the error-free tables, each reduced to its table name, its sanitized
".csv" file name, the number of data rows of the final file with the
header line excluded, and the checksum of the fully written file. -/
theorem manifest_matches_export (hash : List String → String)
    (isalnum : Char → Bool) (sep : String)
    (reads : String → TableRead) (catalog : List CatalogEntry) (fs0 : OutFiles)
    (H : ∀ t, t ∈ tableNames catalog → (reads t).chunks ≠ []) :
    manifestFiles (exportTables hash isalnum sep reads (tableNames catalog) fs0).1
      = ((tableNames catalog).filter (fun t => ((reads t).err).isNone)).map
          (fun t => ⟨t, csvFileName isalnum t, (fullCsv sep (reads t)).length - 1,
                     hash (fullCsv sep (reads t))⟩) :=
  exportTables_manifest hash isalnum sep reads (tableNames catalog) fs0 H

theorem manifest_matches_export_witness :
    manifestFiles (exportTables (fun _ => "h") Char.isAlphanum ";"
        (fun _ => ⟨["c"], [[["1"], ["2"]]], none⟩)
        (tableNames [⟨"a", "table"⟩]) (fun _ => none)).1
      = ((tableNames [⟨"a", "table"⟩]).filter
          (fun t => (((fun _ => (⟨["c"], [[["1"], ["2"]]], none⟩ : TableRead)) t).err).isNone)).map
          (fun t => ⟨t, csvFileName Char.isAlphanum t,
            (fullCsv ";" ((fun _ => (⟨["c"], [[["1"], ["2"]]], none⟩ : TableRead)) t)).length - 1,
            (fun _ : List String => "h") (fullCsv ";" ((fun _ => (⟨["c"], [[["1"], ["2"]]], none⟩ : TableRead)) t))⟩) :=
  manifest_matches_export (fun _ => "h") Char.isAlphanum ";"
    (fun _ => ⟨["c"], [[["1"], ["2"]]], none⟩) [⟨"a", "table"⟩]
    (fun _ => none) (fun _ _ => List.cons_ne_nil _ _)

/-- C10: a table whose chunked read yields zero chunks and no error writes
no CSV file at all; md5sum then fails on the missing file, so — provided
no stale file of that name pre-exists and no other table shadows the
name — the table is excluded from the export results and the manifest. -/
theorem empty_stream_excluded (hash : List String → String) (isalnum : Char → Bool)
    (sep t : String)
    (reads : String → TableRead)
    (hchunks : (reads t).chunks = []) (herr : (reads t).err = none) :
    exportOneTable hash isalnum sep t (reads t) none = (none, none)
    ∧ md5sum hash none = Except.error "FileNotFoundError"
    ∧ ∀ (ts : List String) (fs0 : OutFiles),
        fs0 (csvFileName isalnum t) = none →
        (∀ u, u ∈ ts → csvFileName isalnum u = csvFileName isalnum t → u = t) →
        t ∉ (exportTables hash isalnum sep reads ts fs0).1.map ExportInfo.table
        ∧ (exportTables hash isalnum sep reads ts fs0).2 (csvFileName isalnum t) = none
        ∧ t ∉ (manifestFiles (exportTables hash isalnum sep reads ts fs0).1).map
            ManifestEntry.table := by
  refine ⟨exportOneTable_empty hash isalnum sep t (reads t) hchunks herr, rfl, ?_⟩
  intro ts fs0 h0 hcol
  have h2 := exportTables_empty_stream hash isalnum sep t reads hchunks herr ts fs0
    h0 hcol
  refine ⟨h2.1, h2.2, ?_⟩
  rw [manifestFiles_table_map]
  exact h2.1

theorem empty_stream_excluded_witness :
    exportOneTable (fun _ => "h") Char.isAlphanum ";" "t" ⟨["c"], [], none⟩
        none
      = (none, none) :=
  (empty_stream_excluded (fun _ => "h") Char.isAlphanum ";" "t"
    (fun _ => ⟨["c"], [], none⟩) rfl rfl).1

end BeerPipeline
